import Mathlib

/-!
A verification development for the `ComfyUI-api-tools` plugin.

We shallowly embed the route handlers of `api_server.py`, the model
installer of `model_utils/install.py` and the uptime fragment of
`metrics/prometheus.py` as executable Lean functions, and prove (or
refute) the behavioural properties stated in the specification.

Conventions of the embedding:
* Python strings are Lean `String`s; single-character `str.replace`
  is `pyReplace`, `str.split` on one character is `splitChar`.
* Absolute filesystem paths are segment lists (`Path := List String`),
  implicitly rooted at `/`.  The filesystem is an association list from
  absolute path to entry kind (regular file, directory, or symlink with
  its target); `os.walk` output is the list of non-directory entries
  strictly below the base directory, in entry-list order.
* `os.path.abspath` on an absolute path is pure segment normalisation
  (`abspathSegs`), with no symlink resolution, exactly as in Python;
  `os.path.commonpath` of two absolute paths is their longest common
  segment prefix; `os.path.isfile` follows symlink chains.
-/

namespace ApiTools

/-- Python `s.replace(a, b)` for one-character `a` and `b`. -/
def pyReplace (s : String) (a b : Char) : String :=
  ⟨s.data.map (fun c => if c = a then b else c)⟩

/-- Python `s.split(c)` for a one-character separator (on char lists):
`split '/' "" = [""]`, `split '/' "a//b" = ["a", "", "b"]`. -/
def splitChar (c : Char) : List Char → List (List Char)
  | [] => [[]]
  | x :: xs =>
    if x = c then [] :: splitChar c xs
    else
      match splitChar c xs with
      | [] => [[x]]
      | h :: t => (x :: h) :: t

/-- Python `c.join(parts)` for a one-character separator (on char lists). -/
def joinChar (c : Char) : List (List Char) → List Char
  | [] => []
  | [l] => l
  | l :: l' :: ls => l ++ c :: joinChar c (l' :: ls)

/-- Python `p.startswith(("/", "\\"))`. -/
def startsWithSep (s : String) : Bool :=
  match s.data with
  | [] => false
  | c :: _ => c = '/' || c = '\\'

/-- `_normalize_rel_model_path` from `api_server.py`: reject a leading
`/` or `\`, any `:` after separator normalisation, and any empty, `.`
or `..` segment; on success return the `/`-joined normalised path.
`none` models the raised `ValueError("invalid model path")`. -/
def normalizeRelModelPath (p : String) : Option String :=
  if startsWithSep p then none
  else
    let p2 := pyReplace p '\\' '/'
    if p2.data.contains ':' then none
    else
      let parts := splitChar '/' p2.data
      if parts.any (fun part => part = [] || part = ['.'] || part = ['.', '.']) then none
      else some ⟨joinChar '/' parts⟩

/-- Kind of a filesystem entry. -/
inductive FKind where
  | regular : FKind
  | directory : FKind
  | symlink : List String → FKind
deriving DecidableEq, Repr

/-- An absolute path, as its list of segments below the root. -/
abbrev Path := List String

/-- The filesystem: an association list from absolute path to kind. -/
abbrev FS := List (Path × FKind)

/-- Look up the entry at a path. -/
def FS.lookup : FS → Path → Option FKind
  | [], _ => none
  | (q, k) :: rest, p => if q = p then some k else FS.lookup rest p

def FKind.isDirectory : FKind → Bool
  | FKind.directory => true
  | _ => false

/-- `p` is strictly below `base`. -/
def strictUnder (base p : Path) : Bool :=
  base.isPrefixOf p && decide (base.length < p.length)

/-- The non-directory entries `os.walk(base)` reaches, as absolute
paths, in entry-list order. -/
def walkFiles (fs : FS) (base : Path) : List Path :=
  (fs.filter (fun e => strictUnder base e.1 && !e.2.isDirectory)).map (fun e => e.1)

/-- `os.path.abspath` on an absolute path: drop empty and `.` segments,
pop on `..` (no symlink resolution). -/
def abspathSegs (p : Path) : Path :=
  p.foldl
    (fun acc seg =>
      if seg = "" || seg = "." then acc
      else if seg = ".." then acc.dropLast
      else acc ++ [seg])
    []

/-- `os.path.commonpath` of two absolute paths: the longest common
segment prefix. -/
def commonPrefix : Path → Path → Path
  | x :: xs, y :: ys => if x = y then x :: commonPrefix xs ys else []
  | _, _ => []

/-- Resolve symlink chains (fuelled); `os.stat` behaviour. -/
def resolveTarget (fs : FS) : Nat → Path → Option Path
  | 0, _ => none
  | fuel + 1, p =>
    match FS.lookup fs p with
    | some (FKind.symlink t) => resolveTarget fs fuel t
    | some _ => some p
    | none => none

/-- `os.path.isfile`: the path, after following symlinks, denotes a
regular file. -/
def isfile (fs : FS) (p : Path) : Bool :=
  match resolveTarget fs (fs.length + 1) p with
  | some q =>
    match FS.lookup fs q with
    | some FKind.regular => true
    | _ => false
  | none => false

/-- `os.remove`: delete the entry at the path itself (a symlink is
removed, not its target). -/
def FS.remove (fs : FS) (p : Path) : FS :=
  fs.filter (fun e => e.1 ≠ p)

/-- `os.path.relpath(file_path, base)` for a file strictly below
`base`, as the `/`-joined suffix. -/
def relOf (base p : Path) : String :=
  ⟨joinChar '/' ((p.drop base.length).map String.data)⟩

/-- The host's `folder_paths.folder_names_and_paths`: folder name to a
pair of a base-directory list and an extension list. -/
abbrev Registry := List (String × (List Path × List String))

def Registry.get : Registry → String → Option (List Path × List String)
  | [], _ => none
  | (n, v) :: rest, name => if n = name then some v else Registry.get rest name

/-- An HTTP response of the plugin: a JSON success envelope (with or
without a `result` path), a streamed file, or an error envelope. -/
inductive Resp where
  | success : Path → Resp
  | successEmpty : Resp
  | fileStream : Path → Resp
  | error : Nat → String → Resp
deriving DecidableEq, Repr

/-- The HTTP status of a response. -/
def Resp.code : Resp → Nat
  | Resp.success _ => 200
  | Resp.successEmpty => 200
  | Resp.fileStream _ => 200
  | Resp.error c _ => c

/-- The file-matching test of the delete/download walk: the relative
path equals the raw input, the normalised input, or — after separator
normalisation — the normalised input. -/
def matchesModel (model_input normalized rel : String) : Bool :=
  rel = model_input || rel = normalized || pyReplace rel '\\' '/' = normalized

/-- `remove_model` (DELETE `/api-tools/v1/models/{folder}/{model}`):
normalise the raw path, look up the folder, walk its primary base
directory for a matching file, check containment with
`abspath`/`commonpath`, check `isfile`, then delete.  Returns the
response together with the filesystem after the call. -/
def remove_model (reg : Registry) (fs : FS) (input_folder model_input : String) :
    Resp × FS :=
  match normalizeRelModelPath model_input with
  | none => (Resp.error 400 "invalid model path", fs)
  | some normalized =>
    match Registry.get reg input_folder with
    | none => (Resp.error 404 ("Folder '" ++ input_folder ++ "' not found"), fs)
    | some folderEntry =>
      match folderEntry.1.head? with
      | none => (Resp.error 500 "list index out of range", fs)
      | some base =>
        match (walkFiles fs base).find?
            (fun p => matchesModel model_input normalized (relOf base p)) with
        | none => (Resp.error 404 "Model not found", fs)
        | some matched =>
          if commonPrefix (abspathSegs matched) (abspathSegs base) = abspathSegs base then
            if isfile fs matched then
              (Resp.success matched, FS.remove fs matched)
            else (Resp.error 404 "Not Found", fs)
          else (Resp.error 403 "Access denied", fs)

/-- `download_model` (GET `/api-tools/v1/models/{folder}/{model}/download`):
same resolution pipeline as `remove_model`, but streams the matched
file instead of deleting it.  Read-only, so only the response is
returned. -/
def download_model (reg : Registry) (fs : FS) (input_folder model_input : String) :
    Resp :=
  if input_folder = "" then Resp.error 400 "folder is required"
  else if model_input = "" then Resp.error 400 "model is required"
  else
    match normalizeRelModelPath model_input with
    | none => Resp.error 400 "invalid model path"
    | some normalized =>
      match Registry.get reg input_folder with
      | none => Resp.error 404 ("Folder '" ++ input_folder ++ "' not found")
      | some folderEntry =>
        match folderEntry.1.head? with
        | none => Resp.error 500 "list index out of range"
        | some base =>
          match (walkFiles fs base).find?
              (fun p => matchesModel model_input normalized (relOf base p)) with
          | none => Resp.error 404 "Model not found"
          | some matched =>
            if commonPrefix (abspathSegs matched) (abspathSegs base) = abspathSegs base then
              if isfile fs matched then Resp.fileStream matched
              else Resp.error 404 "Not Found"
            else Resp.error 403 "Access denied"

/-! ## Model installer (`model_utils/install.py`) and the install route

The installer works on string paths.  The disk is the list of existing
paths; the network is a function from URL to fetch success. -/

/-- `os.path.join(a, b)` for a nonempty `a` without a trailing slash. -/
def pyJoin (a b : String) : String :=
  if b.data.head? = some '/' then b else a ++ "/" ++ b

/-- The static type-to-directory mapping of `install.py`. -/
def model_dir_name_map : List (String × String) :=
  [("checkpoints", "checkpoints"), ("checkpoint", "checkpoints"),
   ("unclip", "checkpoints"), ("text_encoders", "text_encoders"),
   ("clip", "text_encoders"), ("vae", "vae"), ("lora", "loras"),
   ("t2i-adapter", "controlnet"), ("t2i-style", "controlnet"),
   ("controlnet", "controlnet"), ("clip_vision", "clip_vision"),
   ("gligen", "gligen"), ("upscale", "upscale_models"),
   ("embedding", "embeddings"), ("embeddings", "embeddings"),
   ("unet", "diffusion_models"), ("diffusion_model", "diffusion_models")]

def assocGet : List (String × String) → String → Option String
  | [], _ => none
  | (k, v) :: rest, key => if k = key then some v else assocGet rest key

/-- Request body of POST `/api-tools/v1/models/install`; `url` is
`none` when the JSON key is absent. -/
structure InstallData where
  url : Option String
  filename : String
  type : String
  save_path : String

/-- Host environment of the installer: the string-path folder registry
(`folder_names_and_paths`), `models_dir`, the set of existing disk
paths, the network, and the Python-version-dependent validation
`urlparse` applies to a `[bracketed]` netloc host (CPython ≥ 3.11
raises unless the literal is a valid IPv6/IPvFuture address, earlier
versions never do; `some msg` is the raised message, `none` accepts). -/
structure InstallEnv where
  registry : List (String × (List String × List String))
  models_dir : String
  disk : List String
  fetch : String → Bool
  bracketed_host_error : String → Option String

def strRegGet : List (String × (List String × List String)) → String →
    Option (List String × List String)
  | [], _ => none
  | (n, v) :: rest, name => if n = name then some v else strRegGet rest name

/-- `get_install_dir`: pick the models base (the `download_model_base`
folder's first path if registered, else `models_dir`), then either join
the explicit `save_path`, or map the declared type to a registered
folder, falling back to the `etc` bucket.  `none` models an uncaught
`IndexError`/`KeyError`. -/
def get_install_dir (env : InstallEnv) (data : InstallData) : Option String :=
  let models_base? : Option String :=
    match strRegGet env.registry "download_model_base" with
    | some pr => pr.1.head?
    | none => some env.models_dir
  match models_base? with
  | none => none
  | some models_base =>
    if data.save_path ≠ "default" then some (pyJoin models_base data.save_path)
    else
      match assocGet model_dir_name_map data.type.toLower with
      | some dirName =>
        match strRegGet env.registry dirName with
        | some pr => pr.1.head?
        | none => none
      | none => some (pyJoin models_base "etc")

/-- `download_url_with_agent`: one blocking GET; on failure return
`False` with the disk unchanged, on success write `save_path` and
return `True`. -/
def download_url_with_agent (fetch : String → Bool) (url save_path : String)
    (disk : List String) : Bool × List String :=
  if fetch url then (true, save_path :: disk)
  else (false, disk)

/-- `install_model_url`: refuse an existing destination; otherwise
fetch — discarding the download's boolean result — and report success.
Returns the `(success, message)` pair, the disk after the call, and
whether a network fetch was performed; `none` models an uncaught
exception in `get_install_dir`. -/
def install_model_url (env : InstallEnv) (data : InstallData) :
    Option ((Bool × String) × List String × Bool) :=
  match get_install_dir env data with
  | none => none
  | some install_dir =>
    let save_path := pyJoin install_dir data.filename
    if env.disk.contains save_path then
      some ((false, "File already exists at path: " ++ save_path), env.disk, false)
    else
      let dl := download_url_with_agent env.fetch ((data.url).getD "") save_path env.disk
      some ((true, "Model installed successfully"), dl.2, true)

/-- Characters allowed in a URL scheme after the first. -/
def isSchemeChar (c : Char) : Bool :=
  c.isAlphanum || c = '+' || c = '-' || c = '.'

/-- A valid URL scheme: nonempty, letter first, scheme chars after. -/
def validScheme (pre : List Char) : Bool :=
  match pre with
  | [] => false
  | c :: rest => c.isAlpha && rest.all isSchemeChar

/-- Strip a valid `scheme:` prefix from a URL, as `urlparse` does. -/
def afterScheme (l : List Char) : List Char :=
  match l.findIdx? (fun c => c = ':') with
  | some i => if validScheme (l.take i) then l.drop (i + 1) else l
  | none => l

/-- `urllib.parse.urlparse(url).netloc`: after the scheme, a leading
`//` introduces the netloc, which runs to the next `/`, `?` or `#`. -/
def urlNetloc (url : String) : String :=
  match afterScheme url.data with
  | '/' :: '/' :: rest => ⟨rest.takeWhile (fun c => c ≠ '/' && c ≠ '?' && c ≠ '#')⟩
  | _ => ""

/-- Python `netloc.partition('[')[2].partition(']')[0]`: the content
between the first `[` and the following `]`. -/
def bracketedHostOf (nl : List Char) : String :=
  ⟨((nl.dropWhile (fun c => c ≠ '[')).drop 1).takeWhile (fun c => c ≠ ']')⟩

/-- Outcome of `urlparse(url).netloc` inside the install route's
`try`: CPython's `urlsplit` raises `ValueError("Invalid IPv6 URL")`
for a netloc containing `[` without `]` or `]` without `[` (every
version), applies the version-dependent bracketed-host validation
`check` when both brackets are present, and otherwise returns the
netloc. -/
def urlparseNetloc (check : String → Option String) (url : String) :
    Except String String :=
  let nl := (urlNetloc url).data
  if (nl.contains '[' && !nl.contains ']') || (nl.contains ']' && !nl.contains '[') then
    Except.error "Invalid IPv6 URL"
  else if nl.contains '[' && nl.contains ']' then
    match check (bracketedHostOf nl) with
    | some msg => Except.error msg
    | none => Except.ok (urlNetloc url)
  else Except.ok (urlNetloc url)

/-- Python `domain.startswith('www.')` / `domain[4:]`. -/
def stripWww (s : String) : String :=
  if s.data.take 4 = ['w', 'w', 'w', '.'] then ⟨s.data.drop 4⟩ else s

/-- The fixed domain allow-list of the install route. -/
def allowed_domains : List String :=
  ["civitai.com", "github.com", "raw.githubusercontent.com", "huggingface.co"]

/-- `install_model` (POST `/api-tools/v1/models/install`): require a
URL (Python truthiness: absent or empty is missing); inside the `try`,
parse it (`except Exception` becomes 400 `Invalid URL format: ...`),
enforce the allow-list on the `www.`-stripped netloc before invoking
the installer, and map the installer's `False` to 409.  Returns the
response, the disk after the call, and whether a fetch happened. -/
def install_model (env : InstallEnv) (data : InstallData) :
    Resp × List String × Bool :=
  match data.url with
  | none => (Resp.error 400 "URL is required", env.disk, false)
  | some url =>
    if url = "" then (Resp.error 400 "URL is required", env.disk, false)
    else
      match urlparseNetloc env.bracketed_host_error url with
      | Except.error msg =>
        (Resp.error 400 ("Invalid URL format: " ++ msg), env.disk, false)
      | Except.ok netloc =>
        let domain := stripWww netloc
        if allowed_domains.contains domain then
          match install_model_url env data with
          | none => (Resp.error 500 "internal error", env.disk, false)
          | some res =>
            if res.1.1 then (Resp.successEmpty, res.2.1, res.2.2)
            else (Resp.error 409 res.1.2, res.2.1, res.2.2)
        else
          (Resp.error 403 ("Domain '" ++ domain ++ "' is not in the allowed domains list"),
           env.disk, false)

/-! ## Image-delete routes -/

/-- Python `sub in s` for char lists: contiguous substring. -/
def containsSub (sub : List Char) : List Char → Bool
  | [] => sub.isEmpty
  | c :: cs => sub.isPrefixOf (c :: cs) || containsSub sub cs

/-- Python `sub in s` (substring containment). -/
def pyIn (sub s : String) : Bool := containsSub sub.data s.data

/-- The host collaborators of the image-delete routes:
`folder_paths.exists_annotated_filepath` and
`folder_paths.get_annotated_filepath`. -/
structure ImageHost where
  exists_annotated : String → Bool
  annotated_path : String → String

/-- DELETE `/api-tools/v1/images/output/{filename}` (and, with a
different annotation tag, `/input/{filename}`): reject a filename whose
first character is `/` or that contains `..` anywhere, then look up
the annotated file and remove it.  Returns the response and the
removed path, if any; an empty filename models the caught
`IndexError` of `filename[0]`. -/
def delete_image (host : ImageHost) (tag : String) (filename : String)
    (is_temp : Bool) : Resp × Option String :=
  match filename.data with
  | [] => (Resp.error 500 "string index out of range", none)
  | c :: _ =>
    if c = '/' || pyIn ".." filename then (Resp.error 400 "invalid filename", none)
    else
      let annotated := filename ++ " [" ++ (if is_temp then "temp" else tag) ++ "]"
      if host.exists_annotated annotated then
        (Resp.successEmpty, some (host.annotated_path annotated))
      else (Resp.error 404 ("file " ++ filename ++ " not found"), none)

/-- `delete_output_images`. -/
def delete_output_images (host : ImageHost) (filename : String) (is_temp : Bool) :
    Resp × Option String :=
  delete_image host "output" filename is_temp

/-- `delete_input_images`. -/
def delete_input_images (host : ImageHost) (filename : String) (is_temp : Bool) :
    Resp × Option String :=
  delete_image host "input" filename is_temp

/-! ## Metrics registry (`metrics/prometheus.py`), uptime fragment

`add_counter`/`increment_counter` are never called anywhere in the
repository, so the counters dictionary stays empty and only gauges are
modelled.  Telemetry readings (clock, psutil, GPU) are inputs. -/

/-- One gauge: help text, base value, and labelled values. -/
structure Gauge where
  help : String
  value : ℚ
  labeled_values : List (String × ℚ)

/-- The metrics registry state: construction time and the gauge map. -/
structure MetricsState where
  start_time : ℚ
  gauges : List (String × Gauge)

/-- `_labels_to_key`: `|`-joined `k=v` pairs (labels are passed
pre-sorted in this repository). -/
def labelsToKey (labels : List (String × String)) : String :=
  String.intercalate "|" (labels.map (fun kv => kv.1 ++ "=" ++ kv.2))

def setAssoc (g : List (String × ℚ)) (key : String) (v : ℚ) : List (String × ℚ) :=
  if g.any (fun kv => kv.1 = key) then
    g.map (fun kv => if kv.1 = key then (kv.1, v) else kv)
  else g ++ [(key, v)]

/-- Apply `f` to the entry with the given key (no-op when absent). -/
def setGaugeList (name : String) (f : Gauge → Gauge) :
    List (String × Gauge) → List (String × Gauge)
  | [] => []
  | (k, g) :: rest =>
    if k = name then (k, f g) :: setGaugeList name f rest
    else (k, g) :: setGaugeList name f rest

/-- `set_gauge`: when the gauge exists, set its base value and, when
labels are given, the labelled value as well. -/
def set_gauge (st : MetricsState) (name : String) (v : ℚ)
    (labels : Option (List (String × String))) : MetricsState :=
  { st with gauges := setGaugeList name (fun g =>
      { g with
        value := v,
        labeled_values :=
          match labels with
          | some ls => setAssoc g.labeled_values (labelsToKey ls) v
          | none => g.labeled_values }) st.gauges }

/-- One GPU's readings, as `CGPUInfo.getStatus` reports them. -/
structure GpuStat where
  gpu_utilization : ℚ
  gpu_temperature : ℚ
  vram_used : ℚ
  vram_total : ℚ
  vram_used_percent : ℚ

/-- One round of telemetry readings consumed by
`update_system_metrics`: the clock, process and system memory, CPU and
disk (absent when the probe raised), torch version, and GPU status. -/
structure Telemetry where
  now : ℚ
  torch_version : Option String
  rss : ℚ
  mem_available : ℚ
  mem_total : ℚ
  mem_percent : ℚ
  cpu_percent : Option ℚ
  disk : Option (ℚ × ℚ × ℚ × ℚ)
  gpu_is_cpu : Bool
  gpus : List GpuStat

/-- The per-GPU gauge updates of `update_system_metrics`. -/
def update_gpu_metrics (st : MetricsState) (i : Nat) (g : GpuStat) : MetricsState :=
  let labels := some [("gpu_index", toString i)]
  let st := if 0 ≤ g.gpu_utilization then
      set_gauge st "comfyui_gpu_utilization_percent" g.gpu_utilization labels else st
  let st := if 0 ≤ g.gpu_temperature then
      set_gauge st "comfyui_gpu_temperature_celsius" g.gpu_temperature labels else st
  let st := if 0 ≤ g.vram_used ∧ 0 ≤ g.vram_total then
      set_gauge (set_gauge st "comfyui_gpu_vram_used_bytes" g.vram_used labels)
        "comfyui_gpu_vram_total_bytes" g.vram_total labels else st
  if 0 ≤ g.vram_used_percent then
    set_gauge st "comfyui_gpu_vram_used_percent" g.vram_used_percent labels else st

/-- The gauge updates `update_system_metrics` performs after its
uptime line: torch info, memory, CPU, disk and GPU gauges. -/
def update_other_metrics (st : MetricsState) (tel : Telemetry) : MetricsState :=
  let st := match tel.torch_version with
    | some v => set_gauge st "comfyui_pytorch_info" 1 (some [("version", v)])
    | none => st
  let st := set_gauge st "comfyui_memory_usage_bytes" tel.rss none
  let st := set_gauge st "comfyui_memory_free_bytes" tel.mem_available none
  let st := set_gauge st "comfyui_memory_total_bytes" tel.mem_total none
  let st := set_gauge st "comfyui_memory_usage_percent" tel.mem_percent none
  let st := match tel.cpu_percent with
    | some c => set_gauge st "comfyui_cpu_usage_percent" c none
    | none => st
  let st := match tel.disk with
    | some du =>
      set_gauge (set_gauge (set_gauge (set_gauge st
        "comfyui_disk_usage_bytes" du.1 none)
        "comfyui_disk_free_bytes" du.2.1 none)
        "comfyui_disk_total_bytes" du.2.2.1 none)
        "comfyui_disk_usage_percent" du.2.2.2 none
    | none => st
  if tel.gpu_is_cpu then st
  else (tel.gpus.enum.foldl (fun acc ig => update_gpu_metrics acc ig.1 ig.2) st)

/-- `update_system_metrics`: refresh uptime (`now - start_time`) first,
then the remaining system gauges from live telemetry. -/
def update_system_metrics (st : MetricsState) (tel : Telemetry) : MetricsState :=
  update_other_metrics
    (set_gauge st "comfyui_uptime_seconds" (tel.now - st.start_time) none) tel

def gaugeLookup : List (String × Gauge) → String → Option Gauge
  | [], _ => none
  | (n, g) :: rest, name => if n = name then some g else gaugeLookup rest name

/-- The base value the Prometheus exposition prints for a gauge
(`format_prometheus`'s `name value` line). -/
def gaugeValue (st : MetricsState) (name : String) : Option ℚ :=
  (gaugeLookup st.gauges name).map Gauge.value

/-- One metrics scrape (`get_metrics`): update the system gauges from
the current telemetry, then expose them. -/
def scrape (st : MetricsState) (tel : Telemetry) : MetricsState :=
  update_system_metrics st tel

/-- The gauge set `_initialize` installs (torch present or not). -/
def initialState (start : ℚ) (torch_version : Option String) : MetricsState :=
  { start_time := start,
    gauges :=
      [("comfyui_uptime_seconds", ⟨"ComfyUI server uptime in seconds", 0, []⟩),
       ("comfyui_memory_usage_bytes", ⟨"ComfyUI memory usage in bytes", 0, []⟩),
       ("comfyui_memory_free_bytes", ⟨"System memory free in bytes", 0, []⟩),
       ("comfyui_memory_total_bytes", ⟨"System total memory in bytes", 0, []⟩),
       ("comfyui_memory_usage_percent", ⟨"System memory usage percentage", 0, []⟩),
       ("comfyui_cpu_usage_percent", ⟨"ComfyUI CPU usage percentage", 0, []⟩),
       ("comfyui_disk_usage_bytes", ⟨"ComfyUI disk usage in bytes", 0, []⟩),
       ("comfyui_disk_free_bytes", ⟨"Disk free space in bytes", 0, []⟩),
       ("comfyui_disk_total_bytes", ⟨"Disk total space in bytes", 0, []⟩),
       ("comfyui_disk_usage_percent", ⟨"ComfyUI disk usage percentage", 0, []⟩)]
      ++ (match torch_version with
          | some _ => [("comfyui_pytorch_info", ⟨"PyTorch version information", 0, []⟩)]
          | none => [])
      ++ [("comfyui_gpu_utilization_percent", ⟨"GPU utilization percentage", 0, []⟩),
          ("comfyui_gpu_temperature_celsius", ⟨"GPU temperature in Celsius", 0, []⟩),
          ("comfyui_gpu_vram_used_bytes", ⟨"GPU VRAM used in bytes", 0, []⟩),
          ("comfyui_gpu_vram_total_bytes", ⟨"GPU VRAM total in bytes", 0, []⟩),
          ("comfyui_gpu_vram_used_percent", ⟨"GPU VRAM usage percentage", 0, []⟩)] }

/-- A minimal telemetry reading at clock time `t` (no torch info, all
probes trivial, no GPU). -/
def telAt (t : ℚ) : Telemetry :=
  { now := t, torch_version := none, rss := 0, mem_available := 0, mem_total := 0,
    mem_percent := 0, cpu_percent := none, disk := none, gpu_is_cpu := true, gpus := [] }

/-! ## Statement vocabulary and concrete scenarios -/

/-- The syntactically bad raw paths named by the spec for the
delete/download routes: a leading `/` or `\`, or an empty, `.` or `..`
segment in either separator style. -/
def specBadPath (p : String) : Bool :=
  startsWithSep p ||
    (splitChar '/' (pyReplace p '\\' '/').data).any
      (fun part => part = [] || part = ['.'] || part = ['.', '.'])

/-- A one-folder registry: `loras` with base `/models/loras`. -/
def lorasRegistry : Registry := [("loras", ([["models", "loras"]], []))]

/-- A base directory holding one symlink `evil.safetensors` whose
target is `t`, together with the target itself. -/
def symlinkFS (t : Path) : FS :=
  [(["models", "loras"], FKind.directory),
   (["models", "loras", "evil.safetensors"], FKind.symlink t),
   (t, FKind.regular)]

/-! ## Lemmas about the string machinery -/

theorem splitChar_ne_nil (c : Char) (l : List Char) : splitChar c l ≠ [] := by
  induction l with
  | nil => simp [splitChar]
  | cons x xs ih =>
    by_cases hx : x = c
    · simp [splitChar, hx]
    · simp only [splitChar, if_neg hx]
      cases h : splitChar c xs with
      | nil => simp
      | cons a as => simp

theorem joinChar_splitChar (c : Char) (l : List Char) :
    joinChar c (splitChar c l) = l := by
  induction l with
  | nil => rfl
  | cons x xs ih =>
    by_cases hx : x = c
    · simp only [splitChar, if_pos hx]
      cases h : splitChar c xs with
      | nil => exact absurd h (splitChar_ne_nil _ _)
      | cons a as =>
        rw [h] at ih
        simp [joinChar, hx, ih]
    · simp only [splitChar, if_neg hx]
      cases h : splitChar c xs with
      | nil => exact absurd h (splitChar_ne_nil _ _)
      | cons a as =>
        rw [h] at ih
        cases as with
        | nil => simpa [joinChar] using ih
        | cons b bs => simpa [joinChar] using ih

theorem splitChar_append (c : Char) (a b : List Char) :
    splitChar c (a ++ c :: b) = splitChar c a ++ splitChar c b := by
  induction a with
  | nil => simp [splitChar]
  | cons x xs ih =>
    by_cases hx : x = c
    · simp [splitChar, hx, ih]
    · simp only [List.cons_append, splitChar, if_neg hx, List.append_eq]
      rw [ih]
      cases h : splitChar c xs with
      | nil => exact absurd h (splitChar_ne_nil _ _)
      | cons a' as' => simp

theorem not_mem_of_mem_splitChar {c : Char} {l t : List Char}
    (ht : t ∈ splitChar c l) : c ∉ t := by
  induction l generalizing t with
  | nil =>
    simp only [splitChar, List.mem_singleton] at ht
    subst ht; simp
  | cons x xs ih =>
    by_cases hx : x = c
    · simp only [splitChar, if_pos hx, List.mem_cons] at ht
      rcases ht with h | h
      · subst h; simp
      · exact ih h
    · simp only [splitChar, if_neg hx] at ht
      cases h : splitChar c xs with
      | nil => exact absurd h (splitChar_ne_nil _ _)
      | cons a as =>
        rw [h] at ht
        simp only [List.mem_cons] at ht
        rcases ht with h1 | h1
        · subst h1
          intro hc
          rcases List.mem_cons.mp hc with h2 | h2
          · exact hx h2.symm
          · exact ih (h ▸ List.mem_cons_self a as) h2
        · exact ih (h ▸ List.mem_cons_of_mem a h1)

theorem splitChar_eq_single {c : Char} {l : List Char} (h : c ∉ l) :
    splitChar c l = [l] := by
  induction l with
  | nil => rfl
  | cons x xs ih =>
    have hx : ¬ x = c := fun e => h (e ▸ List.mem_cons_self x xs)
    have hxs : c ∉ xs := fun hc => h (List.mem_cons_of_mem x hc)
    simp [splitChar, if_neg hx, ih hxs]

theorem splitChar_joinChar (c : Char) (ss : List (List Char)) (h : ss ≠ []) :
    splitChar c (joinChar c ss) = ss.flatMap (splitChar c) := by
  induction ss with
  | nil => cases h rfl
  | cons l ls ih =>
    cases ls with
    | nil => simp [joinChar]
    | cons l' ls' =>
      have hj : joinChar c (l :: l' :: ls') = l ++ c :: joinChar c (l' :: ls') := rfl
      rw [hj, splitChar_append, ih (by simp)]
      simp

theorem map_joinChar (f : Char → Char) (c : Char) (hf : f c = c)
    (ss : List (List Char)) :
    (joinChar c ss).map f = joinChar c (ss.map (List.map f)) := by
  induction ss with
  | nil => rfl
  | cons l ls ih =>
    cases ls with
    | nil => rfl
    | cons l' ls' =>
      have hj : joinChar c (l :: l' :: ls') = l ++ c :: joinChar c (l' :: ls') := rfl
      rw [hj]
      simp only [List.map_append, List.map_cons, hf, ih]
      rfl

theorem pyReplace_data (s : String) (a b : Char) :
    (pyReplace s a b).data = s.data.map (fun c => if c = a then b else c) := rfl

theorem pyReplace_comp (p : String) :
    pyReplace (pyReplace p '/' '\\') '\\' '/' = pyReplace p '\\' '/' := by
  apply String.ext
  simp only [pyReplace_data, List.map_map]
  apply List.map_congr_left
  intro c _
  by_cases h1 : c = '/'
  · simp [h1, Function.comp]
  · by_cases h2 : c = '\\' <;> simp [h1, h2, Function.comp]

theorem pyReplace_eq_self {s : String} {a b : Char} (h : a ∉ s.data) :
    pyReplace s a b = s := by
  apply String.ext
  rw [pyReplace_data]
  calc s.data.map (fun c => if c = a then b else c) = s.data.map id := by
        apply List.map_congr_left
        intro c hc
        have : ¬ c = a := fun e => h (e ▸ hc)
        simp [this]
    _ = s.data := List.map_id _

theorem pyReplace_eq_empty_iff (s : String) (a b : Char) :
    pyReplace s a b = "" ↔ s = "" := by
  constructor
  · intro h
    have := congrArg String.data h
    rw [pyReplace_data] at this
    simp only [List.map_eq_nil_iff] at this
    · exact String.ext this
  · intro h; subst h; rfl

theorem backslash_not_mem_replace (p : String) :
    '\\' ∉ (pyReplace p '\\' '/').data := by
  rw [pyReplace_data]
  intro h
  rcases List.mem_map.mp h with ⟨c, _, hc⟩
  by_cases h1 : c = '\\' <;> simp [h1] at hc

/-! ## Lemmas about the path normaliser -/

theorem normalize_output {p n : String} (h : normalizeRelModelPath p = some n) :
    n = pyReplace p '\\' '/' := by
  simp only [normalizeRelModelPath] at h
  split_ifs at h with h1 h2 h3
  have := Option.some.inj h
  rw [← this]
  apply String.ext
  simp [joinChar_splitChar]

theorem normalize_parts_good {p n : String} (h : normalizeRelModelPath p = some n) :
    ∀ part ∈ splitChar '/' (pyReplace p '\\' '/').data,
      part ≠ [] ∧ part ≠ ['.'] ∧ part ≠ ['.', '.'] := by
  intro part hmem
  simp only [normalizeRelModelPath] at h
  split_ifs at h with h1 h2 h3
  have h3' : ¬((part = [] || part = ['.'] || part = ['.', '.']) = true) := by
    intro hcontra
    exact h3 (List.any_eq_true.mpr ⟨part, hmem, hcontra⟩)
  simp only [Bool.or_eq_true, decide_eq_true_eq, not_or] at h3'
  exact ⟨h3'.1.1, h3'.1.2, h3'.2⟩

theorem normalize_not_sep {p n : String} (h : normalizeRelModelPath p = some n) :
    startsWithSep p = false := by
  simp only [normalizeRelModelPath] at h
  split_ifs at h with h1 h2 h3
  exact Bool.of_not_eq_true h1

theorem startsWithSep_replace (p : String) :
    startsWithSep (pyReplace p '/' '\\') = startsWithSep p := by
  unfold startsWithSep
  rw [pyReplace_data]
  cases hd : p.data with
  | nil => rfl
  | cons c cs =>
    simp only [List.map_cons]
    by_cases h1 : c = '/'
    · simp [h1]
    · by_cases h2 : c = '\\' <;> simp [h1, h2]

theorem normalize_replace (p : String) :
    normalizeRelModelPath (pyReplace p '/' '\\') = normalizeRelModelPath p := by
  unfold normalizeRelModelPath
  rw [startsWithSep_replace, pyReplace_comp]

theorem find?_ext {α : Type} (f g : α → Bool) (h : ∀ a, f a = g a) :
    ∀ l : List α, l.find? f = l.find? g
  | [] => rfl
  | x :: xs => by
    simp only [List.find?_cons, h x]
    cases g x <;> simp [find?_ext f g h xs]

theorem matchesModel_replace {p n : String} (hn : n = pyReplace p '\\' '/')
    (rel : String) :
    matchesModel (pyReplace p '/' '\\') n rel = matchesModel p n rel := by
  have key1 : rel = p → pyReplace rel '\\' '/' = n := fun e => by rw [e, hn]
  have key2 : rel = pyReplace p '/' '\\' → pyReplace rel '\\' '/' = n := fun e => by
    rw [e, pyReplace_comp, hn]
  unfold matchesModel
  rcases Bool.eq_false_or_eq_true (decide (pyReplace rel '\\' '/' = n)) with hr | hr
  · have hr' : pyReplace rel '\\' '/' = n := of_decide_eq_true hr
    simp [hr']
  · have hr' : ¬ pyReplace rel '\\' '/' = n := of_decide_eq_false hr
    have hp' : ¬ rel = p := fun e => hr' (key1 e)
    have hq' : ¬ rel = pyReplace p '/' '\\' := fun e => hr' (key2 e)
    simp [hp', hq', hr']

/-! ## Lemmas about abspath, commonpath and the walk -/

theorem foldl_abs_good (suffix : Path) :
    ∀ acc : Path, (∀ s ∈ suffix, s ≠ "" ∧ s ≠ "." ∧ s ≠ "..") →
      suffix.foldl
        (fun acc seg =>
          if seg = "" || seg = "." then acc
          else if seg = ".." then acc.dropLast
          else acc ++ [seg]) acc = acc ++ suffix := by
  induction suffix with
  | nil => intro acc _; simp
  | cons s ss ih =>
    intro acc h
    obtain ⟨h1, h2, h3⟩ := h s (List.mem_cons_self _ _)
    simp only [List.foldl_cons]
    rw [if_neg (by simp [h1, h2]), if_neg h3,
      ih (acc ++ [s]) (fun x hx => h x (List.mem_cons_of_mem _ hx))]
    simp

theorem abspathSegs_append_good (base suffix : Path)
    (h : ∀ s ∈ suffix, s ≠ "" ∧ s ≠ "." ∧ s ≠ "..") :
    abspathSegs (base ++ suffix) = abspathSegs base ++ suffix := by
  unfold abspathSegs
  rw [List.foldl_append]
  exact foldl_abs_good suffix _ h

theorem commonPrefix_append (a s : Path) : commonPrefix (a ++ s) a = a := by
  induction a with
  | nil => cases s <;> rfl
  | cons x xs ih => simp [commonPrefix, ih]

theorem matched_suffix_good {p n : String} (hn : normalizeRelModelPath p = some n)
    {suffix : List String}
    (hm : matchesModel p n ⟨joinChar '/' (suffix.map String.data)⟩ = true) :
    ∀ s ∈ suffix, s ≠ "" ∧ s ≠ "." ∧ s ≠ ".." := by
  intro s hs
  by_contra hbad
  have hshape : s = "" ∨ s = "." ∨ s = ".." := by
    by_contra h'
    push_neg at h'
    exact hbad ⟨h'.1, h'.2.1, h'.2.2⟩
  -- the raw relative path produced by `os.path.relpath`
  set rel : String := ⟨joinChar '/' (suffix.map String.data)⟩ with hrel
  have hnp : n = pyReplace p '\\' '/' := normalize_output hn
  -- in every disjunct of the match, all `/`-tokens of the
  -- separator-normalised relative path are good
  have htok : ∀ tok ∈ splitChar '/' (pyReplace rel '\\' '/').data,
      tok ≠ [] ∧ tok ≠ ['.'] ∧ tok ≠ ['.', '.'] := by
    simp only [matchesModel, Bool.or_eq_true, decide_eq_true_eq] at hm
    rcases hm with (hm1 | hm2) | hm3
    · rw [hm1]; exact normalize_parts_good hn
    · have hnb : '\\' ∉ n.data := hnp ▸ backslash_not_mem_replace p
      rw [hm2, pyReplace_eq_self hnb, hnp]
      exact normalize_parts_good hn
    · rw [hm3, hnp]
      exact normalize_parts_good hn
  -- the bad segment is itself one of those tokens
  have hsdata : s.data = [] ∨ s.data = ['.'] ∨ s.data = ['.', '.'] := by
    rcases hshape with h | h | h <;> rw [h] <;> simp
  have hnosep : '/' ∉ s.data ∧ '\\' ∉ s.data := by
    rcases hsdata with h | h | h <;> rw [h] <;> simp
  have hmapfix : s.data.map (fun c => if c = '\\' then '/' else c) = s.data := by
    rcases hsdata with h | h | h <;> rw [h] <;> simp
  have hne : suffix.map String.data ≠ [] := by
    intro hc
    rw [List.map_eq_nil_iff] at hc
    rw [hc] at hs
    exact List.not_mem_nil s hs
  have hdata : (pyReplace rel '\\' '/').data
      = joinChar '/' ((suffix.map String.data).map
          (List.map (fun c => if c = '\\' then '/' else c))) := by
    rw [pyReplace_data, hrel]
    exact map_joinChar _ '/' (by decide) _
  have hsmem : s.data ∈ splitChar '/' (pyReplace rel '\\' '/').data := by
    rw [hdata, splitChar_joinChar _ _ (by simpa using hne)]
    apply List.mem_flatMap.mpr
    refine ⟨s.data, ?_, ?_⟩
    · rw [← hmapfix]
      exact List.mem_map_of_mem _ (List.mem_map_of_mem _ hs)
    · rw [splitChar_eq_single hnosep.1]
      simp
  have := htok s.data hsmem
  rcases hsdata with h | h | h
  · exact this.1 h
  · exact this.2.1 h
  · exact this.2.2 h

theorem walk_matched_containment {p n : String} (hn : normalizeRelModelPath p = some n)
    (fs : FS) (base matched : Path)
    (hfind : (walkFiles fs base).find?
        (fun q => matchesModel p n (relOf base q)) = some matched) :
    commonPrefix (abspathSegs matched) (abspathSegs base) = abspathSegs base := by
  have hmem := List.mem_of_find?_eq_some hfind
  have hpred := List.find?_some hfind
  unfold walkFiles at hmem
  rcases List.mem_map.mp hmem with ⟨e, he, hme⟩
  have hfil := (List.mem_filter.mp he).2
  rw [Bool.and_eq_true] at hfil
  have hsu : strictUnder base e.1 = true := hfil.1
  unfold strictUnder at hsu
  rw [Bool.and_eq_true] at hsu
  have hpre : base.isPrefixOf e.1 = true := hsu.1
  have hpre' : base <+: e.1 := List.isPrefixOf_iff_prefix.mp hpre
  have heq : base ++ e.1.drop base.length = e.1 := List.prefix_iff_eq_append.mp hpre'
  have hme' : matched = e.1 := hme.symm
  subst hme'
  have hgood : ∀ s ∈ e.1.drop base.length, s ≠ "" ∧ s ≠ "." ∧ s ≠ ".." :=
    matched_suffix_good hn hpred
  rw [← heq, abspathSegs_append_good base _ hgood]
  exact commonPrefix_append _ _

/-- The delete handler can never answer 403: its containment check is
`abspath`-based and every walked candidate passes it. -/
theorem remove_model_code_ne_403 (reg : Registry) (fs : FS) (folder p : String) :
    (remove_model reg fs folder p).1.code ≠ 403 := by
  unfold remove_model
  cases hn : normalizeRelModelPath p with
  | none => simp [Resp.code]
  | some n =>
    cases hg : Registry.get reg folder with
    | none => simp [Resp.code]
    | some fe =>
      cases hh : fe.1.head? with
      | none => simp [hh, Resp.code]
      | some base =>
        cases hf : (walkFiles fs base).find?
            (fun q => matchesModel p n (relOf base q)) with
        | none => simp [hh, hf, Resp.code]
        | some matched =>
          simp only [hh, hf]
          rw [if_pos (walk_matched_containment hn fs base matched hf)]
          by_cases hi : isfile fs matched = true <;> simp [hi, Resp.code]

/-- The download handler can never answer 403, for the same reason. -/
theorem download_model_code_ne_403 (reg : Registry) (fs : FS) (folder p : String) :
    (download_model reg fs folder p).code ≠ 403 := by
  unfold download_model
  by_cases h0 : folder = ""
  · simp [h0, Resp.code]
  · rw [if_neg h0]
    by_cases h1 : p = ""
    · simp [h1, Resp.code]
    · rw [if_neg h1]
      cases hn : normalizeRelModelPath p with
      | none => simp [Resp.code]
      | some n =>
        cases hg : Registry.get reg folder with
        | none => simp [Resp.code]
        | some fe =>
          cases hh : fe.1.head? with
          | none => simp [hh, Resp.code]
          | some base =>
            cases hf : (walkFiles fs base).find?
                (fun q => matchesModel p n (relOf base q)) with
            | none => simp [hh, hf, Resp.code]
            | some matched =>
              simp only [hh, hf]
              rw [if_pos (walk_matched_containment hn fs base matched hf)]
              by_cases hi : isfile fs matched = true <;> simp [hi, Resp.code]

theorem specBad_normalize_none {p : String} (h : specBadPath p = true) :
    normalizeRelModelPath p = none := by
  simp only [specBadPath, Bool.or_eq_true] at h
  simp only [normalizeRelModelPath]
  split_ifs with h1 h2 h3
  · rfl
  · rfl
  · rfl
  · rcases h with h | h
    · exact absurd h h1
    · exact absurd h h3

/-! ## Claim theorems -/

/-- C1 (amended): a symlink inside the base directory whose target lies
outside every registered base directory is NOT rejected with
OutOfBounds: the containment check runs on `os.path.abspath` (which
resolves no symlinks) of a candidate produced by walking the base
directory, so it always passes; the delete handler deletes the symlink
and returns its path with 200, and the download handler streams it. -/
theorem claim1_symlink_escape_not_rejected (t : Path)
    (h : ¬ ["models", "loras"] <+: t) :
    remove_model lorasRegistry (symlinkFS t) "loras" "evil.safetensors"
      = (Resp.success ["models", "loras", "evil.safetensors"],
         [(["models", "loras"], FKind.directory), (t, FKind.regular)]) ∧
    download_model lorasRegistry (symlinkFS t) "loras" "evil.safetensors"
      = Resp.fileStream ["models", "loras", "evil.safetensors"] := by
  have ht1 : ¬ (["models", "loras"] : Path) = t := fun e => h (e ▸ List.prefix_refl _)
  have ht2 : ¬ (["models", "loras", "evil.safetensors"] : Path) = t :=
    fun e => h (e ▸ ⟨["evil.safetensors"], rfl⟩)
  have ht2' : ¬ t = ["models", "loras", "evil.safetensors"] := fun e => ht2 e.symm
  have hpre : List.isPrefixOf ["models", "loras"] t = false := by
    rw [Bool.eq_false_iff]
    intro hb
    exact h (List.isPrefixOf_iff_prefix.mp hb)
  have hnorm : normalizeRelModelPath "evil.safetensors" = some "evil.safetensors" := by rfl
  have hwalk : walkFiles (symlinkFS t) ["models", "loras"]
      = [["models", "loras", "evil.safetensors"]] := by
    simp [walkFiles, symlinkFS, List.filter, strictUnder, hpre, FKind.isDirectory]
  have hfind : (walkFiles (symlinkFS t) ["models", "loras"]).find?
      (fun q => matchesModel "evil.safetensors" "evil.safetensors"
        (relOf ["models", "loras"] q)) = some ["models", "loras", "evil.safetensors"] := by
    rw [hwalk]; rfl
  have hlookup2 : FS.lookup (symlinkFS t) ["models", "loras", "evil.safetensors"]
      = some (FKind.symlink t) := by
    simp [symlinkFS, FS.lookup]
  have hlookupt : FS.lookup (symlinkFS t) t = some FKind.regular := by
    simp [symlinkFS, FS.lookup, ht1, ht2]
  have hres : resolveTarget (symlinkFS t) 4 ["models", "loras", "evil.safetensors"]
      = some t := by
    simp [resolveTarget, hlookup2, hlookupt]
  have hisfile : isfile (symlinkFS t) ["models", "loras", "evil.safetensors"] = true := by
    unfold isfile
    rw [show (symlinkFS t).length + 1 = 4 from rfl]
    simp only [hres, hlookupt]
  have hremove : FS.remove (symlinkFS t) ["models", "loras", "evil.safetensors"]
      = [(["models", "loras"], FKind.directory), (t, FKind.regular)] := by
    simp [FS.remove, symlinkFS, List.filter, ht2']
  constructor
  · unfold remove_model
    rw [hnorm]
    simp only [Registry.get, lorasRegistry, if_true, List.head?, hfind]
    rw [if_pos (by decide)]
    rw [hisfile]
    simp [hremove]
  · unfold download_model
    rw [if_neg (by decide), if_neg (by decide), hnorm]
    simp only [Registry.get, lorasRegistry, if_true, List.head?, hfind]
    rw [if_pos (by decide)]
    rw [hisfile]
    simp

/-- C1 counterexample: for the concrete out-of-tree target
`/secrets/key`, resolving the symlink's relative name in the delete
handler succeeds (and the download handler streams it) instead of
returning the 403 OutOfBounds rejection the claim asserts. -/
theorem claim1_counterexample :
    (remove_model lorasRegistry (symlinkFS ["secrets", "key"]) "loras"
        "evil.safetensors").1
      = Resp.success ["models", "loras", "evil.safetensors"] ∧
    download_model lorasRegistry (symlinkFS ["secrets", "key"]) "loras"
        "evil.safetensors"
      = Resp.fileStream ["models", "loras", "evil.safetensors"] ∧
    Resp.code (Resp.success ["models", "loras", "evil.safetensors"]) ≠ 403 :=
  ⟨rfl, rfl, by decide⟩

/-- C1 witness: the amended theorem applied to the out-of-tree target
`/secrets/key`. -/
theorem claim1_witness :
    remove_model lorasRegistry (symlinkFS ["secrets", "key"]) "loras" "evil.safetensors"
      = (Resp.success ["models", "loras", "evil.safetensors"],
         [(["models", "loras"], FKind.directory), (["secrets", "key"], FKind.regular)]) :=
  (claim1_symlink_escape_not_rejected ["secrets", "key"]
    (fun hc => by
      have := List.isPrefixOf_iff_prefix.mpr hc
      simp at this)).1

/-- C2: every raw path that begins with a separator or contains an
empty, `.` or `..` segment (in either separator style) is rejected
with the 400 InvalidPath response by both handlers, before any
filesystem access: the response is fixed and the filesystem state is
returned unchanged, for every registry and filesystem. -/
theorem claim2_bad_paths_rejected (reg : Registry) (fs : FS) (folder p : String)
    (h : specBadPath p = true) :
    remove_model reg fs folder p = (Resp.error 400 "invalid model path", fs) ∧
    (folder ≠ "" → p ≠ "" →
      download_model reg fs folder p = Resp.error 400 "invalid model path") := by
  have hn := specBad_normalize_none h
  constructor
  · unfold remove_model
    rw [hn]
  · intro hf hp
    unfold download_model
    rw [if_neg hf, if_neg hp, hn]

/-- C2 witness: the traversal path `../x` is rejected by both
handlers. -/
theorem claim2_witness :
    specBadPath "../x" = true ∧
    remove_model lorasRegistry [] "loras" "../x"
      = (Resp.error 400 "invalid model path", []) ∧
    download_model lorasRegistry [] "loras" "../x"
      = Resp.error 400 "invalid model path" :=
  ⟨by decide,
   (claim2_bad_paths_rejected lorasRegistry [] "loras" "../x" (by decide)).1,
   (claim2_bad_paths_rejected lorasRegistry [] "loras" "../x" (by decide)).2
     (by decide) (by decide)⟩

/-- C3 (amended): an unknown folder name yields the unknown-folder
rejection (404, not 400) only when the supplied path survives the
syntactic check; the handlers normalise the path BEFORE looking up the
folder, so an unknown folder combined with a malformed path yields
InvalidPath, not UnknownFolder. -/
theorem claim3_unknown_folder (reg : Registry) (fs : FS) (folder p n : String)
    (hn : normalizeRelModelPath p = some n)
    (hreg : Registry.get reg folder = none) (hf : folder ≠ "") :
    remove_model reg fs folder p
        = (Resp.error 404 ("Folder '" ++ folder ++ "' not found"), fs) ∧
    download_model reg fs folder p
        = Resp.error 404 ("Folder '" ++ folder ++ "' not found") := by
  have hp : p ≠ "" := by
    intro e
    rw [e] at hn
    simp [normalizeRelModelPath, startsWithSep, pyReplace, splitChar] at hn
  constructor
  · unfold remove_model
    rw [hn, hreg]
  · unfold download_model
    rw [if_neg hf, if_neg hp, hn, hreg]

/-- C3 counterexample: an unknown folder combined with a malformed
path returns the InvalidPath response, not the unknown-folder
rejection, because the syntactic check runs first. -/
theorem claim3_counterexample :
    remove_model lorasRegistry [] "nonexistent" "../x"
        = (Resp.error 400 "invalid model path", []) ∧
    Resp.error 400 "invalid model path"
        ≠ Resp.error 404 "Folder 'nonexistent' not found" :=
  ⟨rfl, by decide⟩

/-- C3 witness: the amended theorem applied to the unknown folder
`nope` with a well-formed path. -/
theorem claim3_witness :
    remove_model lorasRegistry [] "nope" "x.bin"
        = (Resp.error 404 "Folder 'nope' not found", []) :=
  (claim3_unknown_folder lorasRegistry [] "nope" "x.bin" "x.bin"
    rfl rfl (by decide)).1

/-- C4 (amended): the rejection-to-status mapping of the handlers:
InvalidPath and MissingPath (the latter checked only by the download
handler) yield 400; UnknownFolder yields 404 (not 400 as claimed);
both NotFound rejections (no walk match, or not a regular file) yield
404 in the delete handler and in the download handler alike; and the
403 OutOfBounds branch is never taken in either handler, because the
abspath-based containment check passes for every walked candidate. -/
theorem claim4_status_mapping (reg : Registry) (fs : FS) (folder p n : String) :
    (normalizeRelModelPath p = none →
      (remove_model reg fs folder p).1 = Resp.error 400 "invalid model path" ∧
      (folder ≠ "" → p ≠ "" →
        download_model reg fs folder p = Resp.error 400 "invalid model path")) ∧
    (normalizeRelModelPath p = some n → Registry.get reg folder = none →
      (remove_model reg fs folder p).1
          = Resp.error 404 ("Folder '" ++ folder ++ "' not found") ∧
      (folder ≠ "" →
        download_model reg fs folder p
          = Resp.error 404 ("Folder '" ++ folder ++ "' not found"))) ∧
    (download_model reg fs "" p = Resp.error 400 "folder is required") ∧
    (folder ≠ "" → download_model reg fs folder "" = Resp.error 400 "model is required") ∧
    (∀ fe base, normalizeRelModelPath p = some n → Registry.get reg folder = some fe →
      fe.1.head? = some base →
      (walkFiles fs base).find? (fun q => matchesModel p n (relOf base q)) = none →
      (remove_model reg fs folder p).1 = Resp.error 404 "Model not found") ∧
    (∀ fe base matched, normalizeRelModelPath p = some n →
      Registry.get reg folder = some fe → fe.1.head? = some base →
      (walkFiles fs base).find? (fun q => matchesModel p n (relOf base q)) = some matched →
      isfile fs matched = false →
      (remove_model reg fs folder p).1 = Resp.error 404 "Not Found") ∧
    (∀ fe base, folder ≠ "" → normalizeRelModelPath p = some n →
      Registry.get reg folder = some fe → fe.1.head? = some base →
      (walkFiles fs base).find? (fun q => matchesModel p n (relOf base q)) = none →
      download_model reg fs folder p = Resp.error 404 "Model not found") ∧
    (∀ fe base matched, folder ≠ "" → normalizeRelModelPath p = some n →
      Registry.get reg folder = some fe → fe.1.head? = some base →
      (walkFiles fs base).find? (fun q => matchesModel p n (relOf base q)) = some matched →
      isfile fs matched = false →
      download_model reg fs folder p = Resp.error 404 "Not Found") ∧
    (remove_model reg fs folder p).1.code ≠ 403 ∧
    (download_model reg fs folder p).code ≠ 403 := by
  refine ⟨?_, ?_, ?_, ?_, ?_, ?_, ?_, ?_, ?_, ?_⟩
  · intro hn
    constructor
    · unfold remove_model; rw [hn]
    · intro hf hp
      unfold download_model; rw [if_neg hf, if_neg hp, hn]
  · intro hn hreg
    constructor
    · unfold remove_model; rw [hn, hreg]
    · intro hf
      have hp : p ≠ "" := by
        intro e; rw [e] at hn
        simp [normalizeRelModelPath, startsWithSep, pyReplace, splitChar] at hn
      unfold download_model; rw [if_neg hf, if_neg hp, hn, hreg]
  · unfold download_model; rw [if_pos rfl]
  · intro hf
    unfold download_model; rw [if_neg hf, if_pos rfl]
  · intro fe base hn hreg hh hfindnone
    unfold remove_model
    rw [hn, hreg]
    simp only [hh, hfindnone]
  · intro fe base matched hn hreg hh hfindsome hisfile
    unfold remove_model
    rw [hn, hreg]
    simp only [hh, hfindsome]
    rw [if_pos (walk_matched_containment hn fs base matched hfindsome)]
    rw [hisfile]
    simp
  · intro fe base hf hn hreg hh hfindnone
    have hp : p ≠ "" := by
      intro e; rw [e] at hn
      simp [normalizeRelModelPath, startsWithSep, pyReplace, splitChar] at hn
    unfold download_model
    rw [if_neg hf, if_neg hp, hn, hreg]
    simp only [hh, hfindnone]
  · intro fe base matched hf hn hreg hh hfindsome hisfile
    have hp : p ≠ "" := by
      intro e; rw [e] at hn
      simp [normalizeRelModelPath, startsWithSep, pyReplace, splitChar] at hn
    unfold download_model
    rw [if_neg hf, if_neg hp, hn, hreg]
    simp only [hh, hfindsome]
    rw [if_pos (walk_matched_containment hn fs base matched hfindsome)]
    rw [hisfile]
    simp
  · exact remove_model_code_ne_403 reg fs folder p
  · exact download_model_code_ne_403 reg fs folder p

/-- C4 counterexample: an unknown folder is answered with status 404,
not the 400 the claim assigns to UnknownFolder. -/
theorem claim4_counterexample :
    (remove_model lorasRegistry [] "nonexistent" "x.bin").1
        = Resp.error 404 "Folder 'nonexistent' not found" ∧
    download_model lorasRegistry [] "nonexistent" "x.bin"
        = Resp.error 404 "Folder 'nonexistent' not found" ∧
    Resp.code (Resp.error 404 "Folder 'nonexistent' not found") ≠ 400 :=
  ⟨rfl, rfl, by decide⟩

/-- C4 witness: the status mapping exercised on concrete requests. -/
theorem claim4_witness :
    (remove_model lorasRegistry [] "loras" "../x").1
        = Resp.error 400 "invalid model path" ∧
    (remove_model lorasRegistry [] "nope" "x.bin").1
        = Resp.error 404 "Folder 'nope' not found" ∧
    download_model lorasRegistry [] "" "x.bin" = Resp.error 400 "folder is required" ∧
    download_model lorasRegistry [] "loras" "" = Resp.error 400 "model is required" ∧
    (remove_model lorasRegistry [] "loras" "x.bin").1 = Resp.error 404 "Model not found" ∧
    download_model lorasRegistry [] "loras" "x.bin" = Resp.error 404 "Model not found" ∧
    (remove_model lorasRegistry [] "loras" "x.bin").1.code ≠ 403 :=
  ⟨((claim4_status_mapping lorasRegistry [] "loras" "../x" "").1 rfl).1,
   ((claim4_status_mapping lorasRegistry [] "nope" "x.bin" "x.bin").2.1 rfl rfl).1,
   (claim4_status_mapping lorasRegistry [] "" "x.bin" "").2.2.1,
   (claim4_status_mapping lorasRegistry [] "loras" "" "").2.2.2.1 (by decide),
   (claim4_status_mapping lorasRegistry [] "loras" "x.bin" "x.bin").2.2.2.2.1
     ([["models", "loras"]], []) ["models", "loras"] rfl rfl rfl rfl,
   (claim4_status_mapping lorasRegistry [] "loras" "x.bin" "x.bin").2.2.2.2.2.2.1
     ([["models", "loras"]], []) ["models", "loras"] (by decide) rfl rfl rfl rfl,
   (claim4_status_mapping lorasRegistry [] "loras" "x.bin" "x.bin").2.2.2.2.2.2.2.2.1⟩

/-- C5: resolution is separator-style independent: for every raw path
`p`, resolving `p` and resolving `p` with every `/` replaced by `\`
yield identical results (same response and same resulting filesystem)
in both the delete and the download handler. -/
theorem claim5_separator_independence (reg : Registry) (fs : FS) (folder p : String) :
    remove_model reg fs folder (pyReplace p '/' '\\') = remove_model reg fs folder p ∧
    download_model reg fs folder (pyReplace p '/' '\\')
        = download_model reg fs folder p := by
  have hnormr := normalize_replace p
  constructor
  · unfold remove_model
    rw [hnormr]
    cases hn : normalizeRelModelPath p with
    | none => rfl
    | some n =>
      cases hg : Registry.get reg folder with
      | none => rfl
      | some fe =>
        cases hh : fe.1.head? with
        | none => simp [hh]
        | some base =>
          simp only [hh]
          rw [find?_ext _ _
            (fun q => matchesModel_replace (normalize_output hn) (relOf base q))
            (walkFiles fs base)]
  · by_cases hp0 : p = ""
    · subst hp0; rfl
    · have hq0 : pyReplace p '/' '\\' ≠ "" := by
        intro e; exact hp0 ((pyReplace_eq_empty_iff p '/' '\\').mp e)
      unfold download_model
      by_cases hf0 : folder = ""
      · simp [hf0]
      · rw [if_neg hf0, if_neg hf0, if_neg hp0, if_neg hq0, hnormr]
        cases hn : normalizeRelModelPath p with
        | none => rfl
        | some n =>
          cases hg : Registry.get reg folder with
          | none => rfl
          | some fe =>
            cases hh : fe.1.head? with
            | none => simp [hh]
            | some base =>
              simp only [hh]
              rw [find?_ext _ _
                (fun q => matchesModel_replace (normalize_output hn) (relOf base q))
                (walkFiles fs base)]

/-! ## Lemmas and claims for the install route -/

theorem contains_allowed_cases {s : String}
    (h : allowed_domains.contains s = true) :
    s = "civitai.com" ∨ s = "github.com" ∨
    s = "raw.githubusercontent.com" ∨ s = "huggingface.co" := by
  simp only [allowed_domains, List.contains_cons, List.contains_nil,
    Bool.or_eq_true, beq_iff_eq] at h
  simpa using h

theorem stripWww_cases (s : String) :
    stripWww s = s ∨ s = "www." ++ stripWww s := by
  unfold stripWww
  split_ifs with h
  · right
    apply String.ext
    show s.data = ("www." ++ (⟨s.data.drop 4⟩ : String)).data
    have happ : ("www." ++ (⟨s.data.drop 4⟩ : String)).data
        = "www.".data ++ s.data.drop 4 := rfl
    rw [happ]
    have : "www.".data = s.data.take 4 := by rw [h]
    rw [this, List.take_append_drop]
  · left; rfl

/-- An allow-listed (`www.`-stripped) netloc is bracket-free, so
`urlparse` returns it without raising on every CPython version. -/
theorem urlparseNetloc_ok_of_allowed (check : String → Option String) {url : String}
    (h : allowed_domains.contains (stripWww (urlNetloc url)) = true) :
    urlparseNetloc check url = Except.ok (urlNetloc url) := by
  have hnb : '[' ∉ (urlNetloc url).data ∧ ']' ∉ (urlNetloc url).data := by
    rcases stripWww_cases (urlNetloc url) with hc | hc
    · rcases contains_allowed_cases h with hd | hd | hd | hd <;>
        · rw [hc] at hd; rw [hd]; exact ⟨by decide, by decide⟩
    · rcases contains_allowed_cases h with hd | hd | hd | hd <;>
        · rw [hd] at hc; rw [hc]; exact ⟨by decide, by decide⟩
  unfold urlparseNetloc
  simp [hnb.1, hnb.2]

/-- C6: an install request whose computed destination file already
exists is answered with 409 Conflict, the installer performs no
network fetch, and the disk is returned unchanged. -/
theorem claim6_existing_destination_conflict (env : InstallEnv) (data : InstallData)
    (url dir : String) (hurl : data.url = some url) (hne : url ≠ "")
    (hallow : allowed_domains.contains (stripWww (urlNetloc url)) = true)
    (hdir : get_install_dir env data = some dir)
    (hex : env.disk.contains (pyJoin dir data.filename) = true) :
    install_model env data
      = (Resp.error 409 ("File already exists at path: " ++ pyJoin dir data.filename),
         env.disk, false) := by
  have hinst : install_model_url env data
      = some ((false, "File already exists at path: " ++ pyJoin dir data.filename),
              env.disk, false) := by
    unfold install_model_url
    rw [hdir]
    simp only [hex, if_true]
  unfold install_model
  simp only [hurl]
  rw [if_neg hne, urlparseNetloc_ok_of_allowed env.bracketed_host_error hallow]
  simp only [hallow, if_true, hinst]
  simp

/-- C6 witness: a request for `a.bin` whose destination
`/models/loras/a.bin` already exists on disk is refused with 409 and
no fetch. -/
theorem claim6_witness :
    install_model
        ⟨[], "/models", ["/models/loras/a.bin"], fun _ => true, fun _ => none⟩
        ⟨some "https://civitai.com/a", "a.bin", "lora", "loras"⟩
      = (Resp.error 409 "File already exists at path: /models/loras/a.bin",
         ["/models/loras/a.bin"], false) :=
  claim6_existing_destination_conflict
    ⟨[], "/models", ["/models/loras/a.bin"], fun _ => true, fun _ => none⟩
    ⟨some "https://civitai.com/a", "a.bin", "lora", "loras"⟩
    "https://civitai.com/a" "/models/loras" rfl (by decide) (by decide) rfl (by decide)

/-- C9: when the destination does not exist, `install_model_url`
discards the download's boolean result and reports
`(True, "Model installed successfully")` even when the fetch failed;
the handler then answers 200, so a failed download is never surfaced
as an error. -/
theorem claim9_failed_download_reported_success (env : InstallEnv) (data : InstallData)
    (url dir : String) (hurl : data.url = some url) (hne : url ≠ "")
    (hallow : allowed_domains.contains (stripWww (urlNetloc url)) = true)
    (hdir : get_install_dir env data = some dir)
    (hnoex : env.disk.contains (pyJoin dir data.filename) = false)
    (hfail : env.fetch url = false) :
    install_model_url env data
      = some ((true, "Model installed successfully"), env.disk, true) ∧
    install_model env data = (Resp.successEmpty, env.disk, true) ∧
    Resp.code Resp.successEmpty = 200 := by
  have hinst : install_model_url env data
      = some ((true, "Model installed successfully"), env.disk, true) := by
    unfold install_model_url
    rw [hdir]
    simp only [hnoex, Bool.false_eq_true, if_false]
    unfold download_url_with_agent
    rw [hurl]
    simp only [Option.getD_some, hfail, Bool.false_eq_true, if_false]
  refine ⟨hinst, ?_, rfl⟩
  unfold install_model
  simp only [hurl]
  rw [if_neg hne, urlparseNetloc_ok_of_allowed env.bracketed_host_error hallow]
  simp only [hallow, if_true, hinst]

/-- C9 witness: with a network that fails every fetch, installing a
fresh file still reports success (200). -/
theorem claim9_witness :
    install_model ⟨[], "/models", [], fun _ => false, fun _ => none⟩
        ⟨some "https://civitai.com/a", "a.bin", "lora", "loras"⟩
      = (Resp.successEmpty, [], true) :=
  (claim9_failed_download_reported_success
    ⟨[], "/models", [], fun _ => false, fun _ => none⟩
    ⟨some "https://civitai.com/a", "a.bin", "lora", "loras"⟩
    "https://civitai.com/a" "/models/loras" rfl (by decide) (by decide) rfl
    (by decide) rfl).2.1

/-! ## Lemmas and claim for the image-delete routes -/

theorem delete_image_slash (host : ImageHost) (tag filename : String)
    (is_temp : Bool) (rest : List Char) (h : filename.data = '/' :: rest) :
    delete_image host tag filename is_temp
      = (Resp.error 400 "invalid filename", none) := by
  unfold delete_image
  rw [h]
  simp

theorem delete_image_dotdot (host : ImageHost) (tag filename : String)
    (is_temp : Bool) (hne : filename.data ≠ []) (hpy : pyIn ".." filename = true) :
    delete_image host tag filename is_temp
      = (Resp.error 400 "invalid filename", none) := by
  unfold delete_image
  cases hd : filename.data with
  | nil => exact absurd hd hne
  | cons c rest => simp [hpy]

theorem delete_image_pass (host : ImageHost) (tag filename : String)
    (is_temp : Bool) (c : Char) (rest : List Char) (h : filename.data = c :: rest)
    (hc : c ≠ '/') (hpy : pyIn ".." filename = false) :
    delete_image host tag filename is_temp
      = (if host.exists_annotated
            (filename ++ " [" ++ (if is_temp then "temp" else tag) ++ "]") then
          (Resp.successEmpty, some (host.annotated_path
            (filename ++ " [" ++ (if is_temp then "temp" else tag) ++ "]")))
        else (Resp.error 404 ("file " ++ filename ++ " not found"), none)) := by
  unfold delete_image
  rw [h]
  have hcond : (decide (c = '/') || pyIn ".." filename) = false := by simp [hc, hpy]
  simp only [hcond, Bool.false_eq_true, if_false]

/-- C10: the image-delete endpoints answer 400 for every filename whose
first character is `/` and for every filename containing the substring
`..` anywhere (even benign names like `a..b.png`); a filename starting
with `\` passes the check (its outcome is decided solely by the host's
existence lookup); and a filename that passes the check but does not
exist is answered 404 with nothing removed. -/
theorem claim10_image_delete_checks (host : ImageHost) (filename : String)
    (is_temp : Bool) :
    (∀ rest, filename.data = '/' :: rest →
      delete_output_images host filename is_temp
          = (Resp.error 400 "invalid filename", none) ∧
      delete_input_images host filename is_temp
          = (Resp.error 400 "invalid filename", none)) ∧
    (filename.data ≠ [] → pyIn ".." filename = true →
      delete_output_images host filename is_temp
          = (Resp.error 400 "invalid filename", none) ∧
      delete_input_images host filename is_temp
          = (Resp.error 400 "invalid filename", none)) ∧
    (∀ rest, filename.data = '\\' :: rest → pyIn ".." filename = false →
      delete_output_images host filename is_temp
        = (if host.exists_annotated
              (filename ++ " [" ++ (if is_temp then "temp" else "output") ++ "]") then
            (Resp.successEmpty, some (host.annotated_path
              (filename ++ " [" ++ (if is_temp then "temp" else "output") ++ "]")))
          else (Resp.error 404 ("file " ++ filename ++ " not found"), none))) ∧
    (∀ c rest, filename.data = c :: rest → c ≠ '/' → pyIn ".." filename = false →
      host.exists_annotated
          (filename ++ " [" ++ (if is_temp then "temp" else "output") ++ "]") = false →
      delete_output_images host filename is_temp
          = (Resp.error 404 ("file " ++ filename ++ " not found"), none)) ∧
    (∀ c rest, filename.data = c :: rest → c ≠ '/' → pyIn ".." filename = false →
      host.exists_annotated
          (filename ++ " [" ++ (if is_temp then "temp" else "input") ++ "]") = false →
      delete_input_images host filename is_temp
          = (Resp.error 404 ("file " ++ filename ++ " not found"), none)) := by
  refine ⟨?_, ?_, ?_, ?_, ?_⟩
  · intro rest h
    exact ⟨delete_image_slash host "output" filename is_temp rest h,
           delete_image_slash host "input" filename is_temp rest h⟩
  · intro hne hpy
    exact ⟨delete_image_dotdot host "output" filename is_temp hne hpy,
           delete_image_dotdot host "input" filename is_temp hne hpy⟩
  · intro rest h hpy
    exact delete_image_pass host "output" filename is_temp '\\' rest h (by decide) hpy
  · intro c rest h hc hpy hex
    show delete_image host "output" filename is_temp = _
    rw [delete_image_pass host "output" filename is_temp c rest h hc hpy]
    simp [hex]
  · intro c rest h hc hpy hex
    show delete_image host "input" filename is_temp = _
    rw [delete_image_pass host "input" filename is_temp c rest h hc hpy]
    simp [hex]

/-- C10 witness: a host that reports every file absent, exercised on
`/x.png` (400), `a..b.png` (400), `\x.png` (passes the check, 404)
and `x.png` (404, nothing removed). -/
theorem claim10_witness :
    delete_output_images ⟨fun _ => false, fun _ => ""⟩ "/x.png" false
        = (Resp.error 400 "invalid filename", none) ∧
    delete_output_images ⟨fun _ => false, fun _ => ""⟩ "a..b.png" false
        = (Resp.error 400 "invalid filename", none) ∧
    delete_output_images ⟨fun _ => false, fun _ => ""⟩ "\\x.png" false
        = (Resp.error 404 "file \\x.png not found", none) ∧
    delete_input_images ⟨fun _ => false, fun _ => ""⟩ "x.png" false
        = (Resp.error 404 "file x.png not found", none) := by
  refine ⟨?_, ?_, ?_, ?_⟩
  · exact ((claim10_image_delete_checks ⟨fun _ => false, fun _ => ""⟩ "/x.png" false).1
      "x.png".data rfl).1
  · exact ((claim10_image_delete_checks ⟨fun _ => false, fun _ => ""⟩ "a..b.png" false).2.1
      (by decide) (by decide)).1
  · have := (claim10_image_delete_checks ⟨fun _ => false, fun _ => ""⟩ "\\x.png"
      false).2.2.1 "x.png".data rfl (by decide)
    simpa using this
  · exact (claim10_image_delete_checks ⟨fun _ => false, fun _ => ""⟩ "x.png"
      false).2.2.2.2 'x' ".png".data rfl (by decide) (by decide) rfl

/-! ## Lemmas and claim for the metrics uptime gauge -/

theorem set_gauge_start_time (st : MetricsState) (name : String) (v : ℚ)
    (l : Option (List (String × String))) :
    (set_gauge st name v l).start_time = st.start_time := rfl

theorem gaugeLookup_setGaugeList_other (name name' : String) (f : Gauge → Gauge)
    (h : ¬ name' = name) (gs : List (String × Gauge)) :
    gaugeLookup (setGaugeList name f gs) name' = gaugeLookup gs name' := by
  induction gs with
  | nil => rfl
  | cons kg rest ih =>
    obtain ⟨k, g⟩ := kg
    unfold setGaugeList
    by_cases hk : k = name
    · have hk' : ¬ k = name' := fun e => h (e ▸ hk)
      rw [if_pos hk]
      unfold gaugeLookup
      rw [if_neg hk', if_neg hk']
      exact ih
    · rw [if_neg hk]
      unfold gaugeLookup
      by_cases hk2 : k = name'
      · rw [if_pos hk2, if_pos hk2]
      · rw [if_neg hk2, if_neg hk2]
        exact ih

theorem gaugeLookup_setGaugeList_self (name : String) (f : Gauge → Gauge)
    (gs : List (String × Gauge)) :
    gaugeLookup (setGaugeList name f gs) name = (gaugeLookup gs name).map f := by
  induction gs with
  | nil => rfl
  | cons kg rest ih =>
    obtain ⟨k, g⟩ := kg
    unfold setGaugeList
    by_cases hk : k = name
    · rw [if_pos hk]
      unfold gaugeLookup
      rw [if_pos hk, if_pos hk]
      rfl
    · rw [if_neg hk]
      unfold gaugeLookup
      rw [if_neg hk, if_neg hk]
      exact ih

theorem gaugeValue_set_gauge_other (st : MetricsState) (name name' : String)
    (v : ℚ) (l : Option (List (String × String))) (h : ¬ name' = name) :
    gaugeValue (set_gauge st name v l) name' = gaugeValue st name' := by
  unfold gaugeValue set_gauge
  simp only
  rw [gaugeLookup_setGaugeList_other name name' _ h]

theorem gaugeIsSome_set_gauge (st : MetricsState) (name name' : String) (v : ℚ)
    (l : Option (List (String × String))) :
    (gaugeLookup (set_gauge st name v l).gauges name').isSome
      = (gaugeLookup st.gauges name').isSome := by
  unfold set_gauge
  simp only
  by_cases h : name' = name
  · subst h
    rw [gaugeLookup_setGaugeList_self]
    cases gaugeLookup st.gauges name' <;> rfl
  · rw [gaugeLookup_setGaugeList_other name name' _ h]

theorem gaugeValue_set_gauge_self (st : MetricsState) (name : String) (v : ℚ)
    (l : Option (List (String × String)))
    (h : (gaugeLookup st.gauges name).isSome = true) :
    gaugeValue (set_gauge st name v l) name = some v := by
  unfold gaugeValue set_gauge
  simp only
  rw [gaugeLookup_setGaugeList_self]
  obtain ⟨g, hg⟩ := Option.isSome_iff_exists.mp h
  rw [hg]
  rfl

theorem update_gpu_preserves (st : MetricsState) (i : Nat) (g : GpuStat) :
    gaugeValue (update_gpu_metrics st i g) "comfyui_uptime_seconds"
        = gaugeValue st "comfyui_uptime_seconds" ∧
    (update_gpu_metrics st i g).start_time = st.start_time ∧
    (gaugeLookup (update_gpu_metrics st i g).gauges "comfyui_uptime_seconds").isSome
        = (gaugeLookup st.gauges "comfyui_uptime_seconds").isSome := by
  have n1 : ¬ "comfyui_uptime_seconds" = "comfyui_gpu_utilization_percent" := by decide
  have n2 : ¬ "comfyui_uptime_seconds" = "comfyui_gpu_temperature_celsius" := by decide
  have n3 : ¬ "comfyui_uptime_seconds" = "comfyui_gpu_vram_used_bytes" := by decide
  have n4 : ¬ "comfyui_uptime_seconds" = "comfyui_gpu_vram_total_bytes" := by decide
  have n5 : ¬ "comfyui_uptime_seconds" = "comfyui_gpu_vram_used_percent" := by decide
  unfold update_gpu_metrics
  split_ifs <;>
    simp [gaugeValue_set_gauge_other, gaugeIsSome_set_gauge, set_gauge_start_time,
      n1, n2, n3, n4, n5]

theorem gpu_fold_preserves (l : List (Nat × GpuStat)) (st : MetricsState) :
    gaugeValue (l.foldl (fun acc ig => update_gpu_metrics acc ig.1 ig.2) st)
        "comfyui_uptime_seconds" = gaugeValue st "comfyui_uptime_seconds" ∧
    (l.foldl (fun acc ig => update_gpu_metrics acc ig.1 ig.2) st).start_time
        = st.start_time ∧
    (gaugeLookup (l.foldl (fun acc ig => update_gpu_metrics acc ig.1 ig.2) st).gauges
        "comfyui_uptime_seconds").isSome
      = (gaugeLookup st.gauges "comfyui_uptime_seconds").isSome := by
  induction l generalizing st with
  | nil => exact ⟨rfl, rfl, rfl⟩
  | cons ig rest ih =>
    simp only [List.foldl_cons]
    obtain ⟨s1, s2, s3⟩ := update_gpu_preserves st ig.1 ig.2
    obtain ⟨r1, r2, r3⟩ := ih (update_gpu_metrics st ig.1 ig.2)
    exact ⟨r1.trans s1, r2.trans s2, r3.trans s3⟩

theorem update_other_preserves (st : MetricsState) (tel : Telemetry) :
    gaugeValue (update_other_metrics st tel) "comfyui_uptime_seconds"
        = gaugeValue st "comfyui_uptime_seconds" ∧
    (update_other_metrics st tel).start_time = st.start_time ∧
    (gaugeLookup (update_other_metrics st tel).gauges "comfyui_uptime_seconds").isSome
        = (gaugeLookup st.gauges "comfyui_uptime_seconds").isSome := by
  have n1 : ¬ "comfyui_uptime_seconds" = "comfyui_pytorch_info" := by decide
  have n2 : ¬ "comfyui_uptime_seconds" = "comfyui_memory_usage_bytes" := by decide
  have n3 : ¬ "comfyui_uptime_seconds" = "comfyui_memory_free_bytes" := by decide
  have n4 : ¬ "comfyui_uptime_seconds" = "comfyui_memory_total_bytes" := by decide
  have n5 : ¬ "comfyui_uptime_seconds" = "comfyui_memory_usage_percent" := by decide
  have n6 : ¬ "comfyui_uptime_seconds" = "comfyui_cpu_usage_percent" := by decide
  have n7 : ¬ "comfyui_uptime_seconds" = "comfyui_disk_usage_bytes" := by decide
  have n8 : ¬ "comfyui_uptime_seconds" = "comfyui_disk_free_bytes" := by decide
  have n9 : ¬ "comfyui_uptime_seconds" = "comfyui_disk_total_bytes" := by decide
  have n10 : ¬ "comfyui_uptime_seconds" = "comfyui_disk_usage_percent" := by decide
  unfold update_other_metrics
  cases htv : tel.torch_version <;>
    cases hcpu : tel.cpu_percent <;>
      cases hdisk : tel.disk <;>
        by_cases hgpu : tel.gpu_is_cpu <;>
          simp [hgpu, gaugeValue_set_gauge_other, gaugeIsSome_set_gauge,
            set_gauge_start_time, gpu_fold_preserves, n1, n2, n3, n4, n5, n6, n7,
            n8, n9, n10, (gpu_fold_preserves tel.gpus.enum _).1,
            (gpu_fold_preserves tel.gpus.enum _).2.1,
            (gpu_fold_preserves tel.gpus.enum _).2.2]

/-- After one scrape the uptime gauge holds `now - start_time`, the
start time is unchanged, and the gauge stays present. -/
theorem scrape_uptime (st : MetricsState) (tel : Telemetry)
    (hp : (gaugeLookup st.gauges "comfyui_uptime_seconds").isSome = true) :
    gaugeValue (scrape st tel) "comfyui_uptime_seconds"
        = some (tel.now - st.start_time) ∧
    (scrape st tel).start_time = st.start_time ∧
    (gaugeLookup (scrape st tel).gauges "comfyui_uptime_seconds").isSome = true := by
  unfold scrape update_system_metrics
  obtain ⟨p1, p2, p3⟩ := update_other_preserves
    (set_gauge st "comfyui_uptime_seconds" (tel.now - st.start_time) none) tel
  refine ⟨?_, ?_, ?_⟩
  · rw [p1]
    exact gaugeValue_set_gauge_self st _ _ _ hp
  · rw [p2]
    exact set_gauge_start_time st _ _ _
  · rw [p3, gaugeIsSome_set_gauge]
    exact hp

/-- C8: with a non-decreasing clock, the uptime value reported by a
second scrape is at least the value reported by the first. -/
theorem claim8_uptime_monotone (st : MetricsState) (tel1 tel2 : Telemetry)
    (hp : (gaugeLookup st.gauges "comfyui_uptime_seconds").isSome = true)
    (hclock : tel1.now ≤ tel2.now) :
    ∀ v1 v2,
      gaugeValue (scrape st tel1) "comfyui_uptime_seconds" = some v1 →
      gaugeValue (scrape (scrape st tel1) tel2) "comfyui_uptime_seconds" = some v2 →
      v1 ≤ v2 := by
  intro v1 v2 h1 h2
  obtain ⟨q1, q2, q3⟩ := scrape_uptime st tel1 hp
  obtain ⟨r1, r2, r3⟩ := scrape_uptime (scrape st tel1) tel2 q3
  rw [q1] at h1
  rw [r1, q2] at h2
  obtain rfl : v1 = tel1.now - st.start_time := (Option.some.inj h1).symm
  obtain rfl : v2 = tel2.now - st.start_time := (Option.some.inj h2).symm
  exact sub_le_sub_right hclock _

/-- C8 witness: two scrapes of a freshly initialised registry at
clock times 1 and 2 report uptimes 1 and 2. -/
theorem claim8_witness :
    gaugeValue (scrape (initialState 0 none) (telAt 1)) "comfyui_uptime_seconds"
        = some 1 ∧
    gaugeValue (scrape (scrape (initialState 0 none) (telAt 1)) (telAt 2))
        "comfyui_uptime_seconds" = some 2 ∧
    (1 : ℚ) ≤ 2 := by
  have hp : (gaugeLookup (initialState 0 none).gauges
      "comfyui_uptime_seconds").isSome = true := rfl
  have h1 : gaugeValue (scrape (initialState 0 none) (telAt 1))
      "comfyui_uptime_seconds" = some 1 := by
    rw [(scrape_uptime _ _ hp).1]
    simp [telAt, initialState]
  have h2 : gaugeValue (scrape (scrape (initialState 0 none) (telAt 1)) (telAt 2))
      "comfyui_uptime_seconds" = some 2 := by
    rw [(scrape_uptime _ _ (scrape_uptime _ _ hp).2.2).1, (scrape_uptime _ _ hp).2.1]
    simp [telAt, initialState]
  exact ⟨h1, h2,
    claim8_uptime_monotone (initialState 0 none) (telAt 1) (telAt 2) hp
      (by simp [telAt, one_le_two]) 1 2 h1 h2⟩

end ApiTools
